import Mathlib

/-!
Shallow embedding of `monai/transforms/transforms.py` (vanilla MONAI image
transforms) and proofs about the claims concerning `SpatialCrop`, the `Zoom`
keep-size reconciliation, `ImageEndPadder`, `RandRotate90` and
`AsChannelFirst`.

An n-dimensional numpy array is modelled as a shape (list of axis extents)
together with a total indexing function on integer index vectors; values read
outside the shape are unspecified but fixed by the function, and every theorem
only constrains in-bounds reads.  Python exceptions (assert failures, index
errors) are modelled with `Except String`.  numpy `uint16` arithmetic is
modelled as arithmetic modulo 2^16 on `Nat`.
-/

namespace Monai

/-- Model of a numpy `ndarray`: a shape and a total indexing function. -/
structure NDArray (α : Type) where
  shape : List Nat
  data : List Nat → α

/-- Models `(np.subtract(b, a) >= 0).all()` for same-length integer vectors:
every element of `a` is at most the corresponding element of `b`. -/
def leAll (a b : List Nat) : Bool :=
  (List.zip a b).all fun p => decide (p.1 ≤ p.2)

/-- `idx` is a valid index vector into an array of shape `shape`. -/
def inBounds (idx shape : List Nat) : Bool :=
  decide (idx.length = shape.length) &&
    (List.zip idx shape).all fun p => decide (p.1 < p.2)

/-- Index `i` falls inside the data region of an axis padded with `p.1` cells
before a segment of extent `s` (and arbitrarily many after). -/
def padHit (p : Nat × Nat) (s i : Nat) : Bool :=
  decide (p.1 ≤ i ∧ i < p.1 + s)

/-- Model of `np.pad(a, pv, mode='constant', constant_values=fill)`:
axis `d` grows from extent `s_d` to `pv_d.1 + s_d + pv_d.2`; reads inside the
shifted original region index into `a`, all other reads give `fill`. -/
def padArr {α : Type} (pv : List (Nat × Nat)) (fill : α) (a : NDArray α) : NDArray α where
  shape := List.zipWith (fun p s => p.1 + s + p.2) pv a.shape
  data := fun idx =>
    if (List.zip idx (List.zip pv a.shape)).all (fun t => padHit t.2.1 t.2.2 t.1) then
      a.data (List.zipWith (fun i p => i - p.1) idx pv)
    else fill

/-- `SpatialCrop` state: the stored ROI, one entry per spatial axis.
In the `(roi_center, roi_size)` branch the source stores numpy `uint16`
values, so entries are natural numbers below 2^16; in the
`(roi_start, roi_end)` branch they are the (assert-checked nonnegative)
Python integers. -/
structure SpatialCrop where
  roi_start : List Nat
  roi_end : List Nat
deriving DecidableEq

/-- `SpatialCrop.__init__` with `roi_center`/`roi_size` given (lines 489-497).
The source asserts positivity of every entry, converts both vectors to numpy
`uint16` (silent wrap modulo 2^16 in the numpy of this code's era), and
computes `roi_start = roi_center - roi_size // 2`, `roi_end = roi_start +
roi_size` in `uint16` arithmetic, i.e. modulo 2^16.  Mismatched lengths
(a numpy broadcast concern) are outside the claims and not modelled. -/
def SpatialCrop.fromCenterSize (center size : List Int) : Except String SpatialCrop :=
  if center.all fun x => decide (0 < x) then
    if size.all fun x => decide (0 < x) then
      let c16 : List Nat := center.map fun x => (x % 65536).toNat
      let s16 : List Nat := size.map fun x => (x % 65536).toNat
      let start : List Nat := List.zipWith (fun c s => (c + 65536 - s / 2) % 65536) c16 s16
      .ok { roi_start := start
            roi_end := List.zipWith (fun st s => (st + s) % 65536) start s16 }
    else .error "all elements of roi_size must be positive."
  else .error "all elements of roi_center must be positive."

/-- `SpatialCrop.__init__` with `roi_start`/`roi_end` given (lines 499-505):
asserts `start >= 0` and `end > 0` elementwise and stores them unchanged. -/
def SpatialCrop.fromStartEnd (start stop : List Int) : Except String SpatialCrop :=
  if start.all fun x => decide (0 ≤ x) then
    if stop.all fun x => decide (0 < x) then
      .ok { roi_start := start.map Int.toNat, roi_end := stop.map Int.toNat }
    else .error "all elements of roi_end must be positive."
  else .error "all elements of roi_start must be greater than or equal to 0."

/-- `SpatialCrop.__call__` (lines 507-521).  `max_end = img.shape[1:]`; three
asserts validate `start <= max_end`, `end <= max_end` and `start <= end`
elementwise (signed integer comparisons in the source, all values here being
nonnegative); then the image is sliced as `img[:, s0:e0, ...]` for 1, 2 or 3
spatial axes, any other dimensionality raising `ValueError`.  Under the
validated bounds a numpy slice `s:e` on an axis of extent `n` keeps indices
`s + i` for `i < e - s`, which is the generic form written once here for the
three source branches.  ROI/image rank mismatch (a numpy broadcast concern)
is outside the claims and mapped to an error. -/
def SpatialCrop.call {α : Type} (t : SpatialCrop) (img : NDArray α) : Except String (NDArray α) :=
  match img.shape with
  | [] => .error "cannot slice a 0-dimensional array"
  | c :: maxEnd =>
    if t.roi_start.length = maxEnd.length ∧ t.roi_end.length = maxEnd.length then
      if leAll t.roi_start maxEnd then
        if leAll t.roi_end maxEnd then
          if leAll t.roi_start t.roi_end then
            if 1 ≤ t.roi_start.length ∧ t.roi_start.length ≤ 3 then
              .ok { shape := c :: List.zipWith (fun e s => e - s) t.roi_end t.roi_start
                    data := fun idx =>
                      img.data (idx.headD 0 :: List.zipWith (fun s i => s + i) t.roi_start idx.tail) }
            else .error "unsupported image shape."
          else .error "invalid roi range."
        else .error "roi end out of image space."
      else .error "roi start out of image space."
    else .error "operands could not be broadcast together"

/-- The basic slice `zoomed[0:c0, 0:c1, 0:c2]` from `Zoom.__call__` line 316:
requires at least three axes (numpy raises for fewer indices than given);
slicing `0:c` on an axis of extent `s` keeps `min c s` leading entries and
leaves the indexing of the retained region unchanged; trailing axes are
untouched. -/
def slice3 {α : Type} (c0 c1 c2 : Nat) (a : NDArray α) : Except String (NDArray α) :=
  match a.shape with
  | s0 :: s1 :: s2 :: rest =>
    .ok { shape := min c0 s0 :: min c1 s1 :: min c2 s2 :: rest, data := a.data }
  | _ => .error "too many indices for array"

/-- The `keep_size` reconciliation of `Zoom.__call__` (lines 304-317).
`origShape` is `img.shape`, `zoomed` the resampled intermediate (the
resampling itself, `scipy.ndimage.zoom`, is an opaque external dependency;
quantifying over every possible `zoomed` array covers every zoom factor).
For each axis `d`: if the zoomed extent exceeds the original, `crop_vec[d]`
is the original extent, else the zoomed extent; if it is smaller, the axis is
padded by `floor(h)` before and `ceil(h)` after with `h = (orig - zoomed)/2`
(exact in double precision for any realistic extent).  The slice line indexes
`crop_vec[0..2]` and three array axes, so fewer than three axes is a Python
`IndexError`; `np.pad` then requires one pad pair per axis. -/
def Zoom.keepSize {α : Type} (origShape : List Nat) (cval : α) (zoomed : NDArray α) :
    Except String (NDArray α) :=
  let n := origShape.length
  let cropVec : List Nat := (List.range n).map fun d =>
    if origShape.getD d 0 < zoomed.shape.getD d 0 then origShape.getD d 0
    else zoomed.shape.getD d 0
  let padVec : List (Nat × Nat) := (List.range n).map fun d =>
    if zoomed.shape.getD d 0 < origShape.getD d 0 then
      ((origShape.getD d 0 - zoomed.shape.getD d 0) / 2,
       (origShape.getD d 0 - zoomed.shape.getD d 0 + 1) / 2)
    else (0, 0)
  match cropVec with
  | c0 :: c1 :: c2 :: _ =>
    match slice3 c0 c1 c2 zoomed with
    | .error e => .error e
    | .ok sliced =>
      if padVec.length = sliced.shape.length then .ok (padArr padVec cval sliced)
      else .error "pad width must have one pair per axis"
  | _ => .error "list index out of range"

/-- `ImageEndPadder._determine_data_pad_width` (lines 405-406):
`[(0, max(out_size[i] - data_shape[i], 0)) for i in range(len(out_size))]`.
Indexing `data_shape[i]` raises `IndexError` when `out_size` is longer than
`data_shape` (truncated subtraction on `Nat` is exactly `max(.. - .., 0)`). -/
def determineDataPadWidth (outSize dataShape : List Nat) : Except String (List (Nat × Nat)) :=
  if outSize.length ≤ dataShape.length then
    .ok ((List.range outSize.length).map fun i => (0, outSize.getD i 0 - dataShape.getD i 0))
  else .error "tuple index out of range"

/-- `ImageEndPadder.__call__` (lines 408-412): pad widths are computed from
`img.shape[2:]`, axes 0 and 1 get `(0, 0)`, and `np.pad` is applied (which
requires one pad pair per array axis).  Only the `'constant'` mode — the one
the claims exercise — is modelled; `np.pad` fills with 0 in that mode. -/
def ImageEndPadder.call {α : Type} [Zero α] (outSize : List Nat) (img : NDArray α) :
    Except String (NDArray α) :=
  match determineDataPadWidth outSize (img.shape.drop 2) with
  | .error e => .error e
  | .ok dpw =>
    let allPad := (0, 0) :: (0, 0) :: dpw
    if allPad.length = img.shape.length then .ok (padArr allPad 0 img)
    else .error "pad width must have one pair per axis"

/-- One draw from the shared numpy `RandomState` `self.R`, for audit of the
draw sequence: `randint(bound)` or `random()`. -/
inductive DrawEvent where
  | randint (bound : Nat)
  | rand
deriving DecidableEq

/-- Model of the numpy `RandomState` consumed through `Randomizable.R`:
an abstract stream of integer values and of unit-interval floats (modelled as
rationals), a position, and a log of the draws made so far. -/
structure Gen where
  intSeq : Nat → Nat
  floatSeq : Nat → ℚ
  pos : Nat
  log : List DrawEvent

/-- `self.R.randint(k)`: a uniform integer in `[0, k)`; raises `ValueError`
when the range is empty (`k = 0`).  The abstract stream value is reduced
modulo `k` so that any stream realises only legal outcomes. -/
def Gen.randint (k : Nat) (g : Gen) : Except String (Nat × Gen) :=
  if k = 0 then .error "low >= high"
  else .ok (g.intSeq g.pos % k,
            { g with pos := g.pos + 1, log := g.log ++ [DrawEvent.randint k] })

/-- `self.R.random()`: a float in `[0, 1)`; theorems needing the codomain
bound hypothesise `0 ≤ floatSeq n`. -/
def Gen.random (g : Gen) : ℚ × Gen :=
  (g.floatSeq g.pos, { g with pos := g.pos + 1, log := g.log ++ [DrawEvent.rand] })

/-- Reverse an axis: `np.flip(a, ax)` restricted to one axis, used by
`np.rot90`. -/
def flipAxis {α : Type} (ax : Nat) (a : NDArray α) : NDArray α where
  shape := a.shape
  data := fun idx =>
    a.data ((List.range idx.length).map fun i =>
      if i = ax then a.shape.getD ax 0 - 1 - idx.getD i 0 else idx.getD i 0)

/-- `np.transpose(a, perm)`: axis `k` of the result is axis `perm[k]` of `a`;
entry `out[i]` is `a[j]` with `j[perm[k]] = i[k]`. -/
def transposePerm {α : Type} (perm : List Nat) (a : NDArray α) : NDArray α where
  shape := perm.map fun p => a.shape.getD p 0
  data := fun idx =>
    a.data ((List.range a.shape.length).map fun pos =>
      idx.getD (perm.findIdx fun x => x == pos) 0)

/-- `np.rot90(a, k, axes)` (as wrapped by `Rotate90.__call__`, line 430-431;
`np.ascontiguousarray` only affects memory layout): validates that the two
plane axes are distinct and in range, reduces `k` modulo 4, and composes
flips and an axis swap exactly as the numpy source does. -/
def rot90 {α : Type} (k : Nat) (axes : Nat × Nat) (a : NDArray α) : Except String (NDArray α) :=
  let n := a.shape.length
  if axes.1 = axes.2 ∨ n ≤ axes.1 ∨ n ≤ axes.2 then
    .error "axes must be different and within the range of 0 and 1 less than array dim"
  else
    let swapPerm : List Nat := (List.range n).map fun i =>
      if i = axes.1 then axes.2 else if i = axes.2 then axes.1 else i
    match k % 4 with
    | 0 => .ok a
    | 2 => .ok (flipAxis axes.2 (flipAxis axes.1 a))
    | 1 => .ok (transposePerm swapPerm (flipAxis axes.2 a))
    | _ => .ok (flipAxis axes.2 (transposePerm swapPerm a))

/-- `RandRotate90` instance state (lines 441-456): the configuration `prob`
(clamped at construction), `max_k` and `axes`, plus the transient outcome of
the most recent `randomize` (`_do_transform`, `_rand_k`). -/
structure RandRotate90 where
  prob : ℚ
  max_k : Nat
  axes : Nat × Nat
  do_transform : Bool
  rand_k : Nat

/-- `RandRotate90.__init__`: `self.prob = min(max(prob, 0.0), 1.0)`,
`_do_transform = False`, `_rand_k = 0`. -/
def RandRotate90.make (prob : ℚ) (max_k : Nat) (axes : Nat × Nat) : RandRotate90 :=
  { prob := min (max prob 0) 1, max_k := max_k, axes := axes
    do_transform := false, rand_k := 0 }

/-- `RandRotate90.randomize` (lines 458-460): draws
`_rand_k = R.randint(max_k) + 1`, then `_do_transform = R.random() < prob`. -/
def RandRotate90.randomize (t : RandRotate90) (g : Gen) : Except String (RandRotate90 × Gen) :=
  match Gen.randint t.max_k g with
  | .error e => .error e
  | .ok (k, g1) =>
    let (r, g2) := Gen.random g1
    .ok ({ t with rand_k := k + 1, do_transform := decide (r < t.prob) }, g2)

/-- `RandRotate90.__call__` (lines 462-467): randomize, return the input
unchanged when `_do_transform` is false, else apply `Rotate90(_rand_k, axes)`. -/
def RandRotate90.call {α : Type} (t : RandRotate90) (img : NDArray α) (g : Gen) :
    Except String (NDArray α × RandRotate90 × Gen) :=
  match t.randomize g with
  | .error e => .error e
  | .ok (t1, g1) =>
    if t1.do_transform then
      match rot90 t1.rand_k t1.axes img with
      | .error e => .error e
      | .ok out => .ok (out, t1, g1)
    else .ok (img, t1, g1)

/-- `AsChannelFirst` instance state: the `channel_dim` configuration field
(an integer, default `-1`). -/
structure AsChannelFirst where
  channel_dim : Int
deriving DecidableEq

/-- `AsChannelFirst.__call__` (lines 101-106): when `channel_dim == -1` it is
overwritten with `img.ndim - 1` (a mutation of the instance); then
`axes = list(range(ndim))` with `channel_dim` removed (`list.remove` raises
`ValueError` when the value is absent, i.e. when the resolved dimension is
out of `0..ndim-1`), and the array is transposed by `[channel_dim] + axes`.
Returns the result together with the updated instance state. -/
def AsChannelFirst.call {α : Type} (t : AsChannelFirst) (img : NDArray α) :
    Except String (NDArray α × AsChannelFirst) :=
  let n := img.shape.length
  let cd : Int := if t.channel_dim = -1 then (n : Int) - 1 else t.channel_dim
  if 0 ≤ cd ∧ cd < (n : Int) then
    let cdN := cd.toNat
    let axes := (List.range n).erase cdN
    .ok (transposePerm (cdN :: axes) img, { channel_dim := cd })
  else .error "x not in list"

/-- Elementwise conjunction of a binary predicate over two equal-length
integer vectors. -/
def pairAll (P : Int → Int → Bool) (a b : List Int) : Bool :=
  decide (a.length = b.length) && (List.zip a b).all fun p => P p.1 p.2

/-- No axis of a `(center, size)` pair wraps in the `uint16` ROI arithmetic:
both values fit in 16 bits, `size // 2 ≤ center`, and
`center - size // 2 + size < 2^16`. -/
def noWrap (c s : Int) : Bool :=
  decide (0 < c ∧ c < 65536 ∧ 0 < s ∧ s < 65536 ∧ s / 2 ≤ c ∧ c - s / 2 + s < 65536)

theorem pairAll_cons {P : Int → Int → Bool} {c s : Int} {cs ss : List Int}
    (h : pairAll P (c :: cs) (s :: ss) = true) : P c s = true ∧ pairAll P cs ss = true := by
  simp only [pairAll, List.zip_cons_cons, List.all_cons, Bool.and_eq_true, decide_eq_true_eq,
    List.length_cons] at h ⊢
  exact ⟨h.2.1, by omega, h.2.2⟩

theorem pairAll_all_left {P : Int → Int → Bool} {Q : Int → Bool} (a b : List Int)
    (hPQ : ∀ x y, P x y = true → Q x = true)
    (h : pairAll P a b = true) : a.all Q = true := by
  induction a generalizing b with
  | nil => rfl
  | cons c cs ih =>
    cases b with
    | nil => simp [pairAll] at h
    | cons s ss =>
      obtain ⟨h1, h2⟩ := pairAll_cons h
      simp only [List.all_cons, Bool.and_eq_true]
      exact ⟨hPQ c s h1, ih ss h2⟩

theorem pairAll_all_right {P : Int → Int → Bool} {Q : Int → Bool} (a b : List Int)
    (hPQ : ∀ x y, P x y = true → Q y = true)
    (h : pairAll P a b = true) : b.all Q = true := by
  induction b generalizing a with
  | nil => rfl
  | cons s ss ih =>
    cases a with
    | nil => simp [pairAll] at h
    | cons c cs =>
      obtain ⟨h1, h2⟩ := pairAll_cons h
      simp only [List.all_cons, Bool.and_eq_true]
      exact ⟨hPQ c s h1, ih cs h2⟩

theorem fromCenterSize_start_eq (center size : List Int)
    (h : pairAll noWrap center size = true) :
    List.zipWith (fun c s => (c + 65536 - s / 2) % 65536)
        (center.map fun x => (x % 65536).toNat) (size.map fun x => (x % 65536).toNat)
      = List.zipWith (fun c s => (c - s / 2).toNat) center size := by
  induction center generalizing size with
  | nil => rfl
  | cons c cs ih =>
    cases size with
    | nil => rfl
    | cons s ss =>
      obtain ⟨h1, h2⟩ := pairAll_cons h
      simp only [noWrap, decide_eq_true_eq] at h1
      simp only [List.map_cons, List.zipWith_cons_cons, ih ss h2, List.cons.injEq, and_true]
      omega

theorem fromCenterSize_stop_eq (center size : List Int)
    (h : pairAll noWrap center size = true) :
    List.zipWith (fun st s => (st + s) % 65536)
        (List.zipWith (fun c s => (c + 65536 - s / 2) % 65536)
          (center.map fun x => (x % 65536).toNat) (size.map fun x => (x % 65536).toNat))
        (size.map fun x => (x % 65536).toNat)
      = List.zipWith (fun c s => (c - s / 2 + s).toNat) center size := by
  induction center generalizing size with
  | nil => rfl
  | cons c cs ih =>
    cases size with
    | nil => rfl
    | cons s ss =>
      obtain ⟨h1, h2⟩ := pairAll_cons h
      simp only [noWrap, decide_eq_true_eq] at h1
      simp only [List.map_cons, List.zipWith_cons_cons, ih ss h2, List.cons.injEq, and_true]
      omega

/-- Claim C1 (amended): when `SpatialCrop` is built from positive
`(roi_center, roi_size)`, the stored ROI satisfies
`start = center - size // 2` and `end = start + size` elementwise on every
axis where the 16-bit arithmetic does not wrap, i.e. where
`center < 2^16`, `size < 2^16`, `size // 2 ≤ center` and
`center - size // 2 + size < 2^16`; other positive inputs wrap modulo
`2^16` because the source converts both vectors to numpy `uint16`. -/
theorem claim_C1 (center size : List Int) (h : pairAll noWrap center size = true) :
    SpatialCrop.fromCenterSize center size =
      .ok ⟨List.zipWith (fun c s => (c - s / 2).toNat) center size,
           List.zipWith (fun c s => (c - s / 2 + s).toNat) center size⟩ := by
  have hc : center.all (fun x => decide (0 < x)) = true :=
    pairAll_all_left center size
      (by intro x y hxy; simp only [noWrap, decide_eq_true_eq] at hxy ⊢; exact hxy.1) h
  have hs : size.all (fun x => decide (0 < x)) = true :=
    pairAll_all_right center size
      (by intro x y hxy; simp only [noWrap, decide_eq_true_eq] at hxy ⊢; exact hxy.2.2.1) h
  simp only [SpatialCrop.fromCenterSize, hc, hs, if_true]
  exact congrArg Except.ok (by
    rw [SpatialCrop.mk.injEq]
    exact ⟨fromCenterSize_start_eq center size h, fromCenterSize_stop_eq center size h⟩)

/-- Witness for C1: `center = [10]`, `size = [4]` gives the stored ROI
`start = [8]`, `end = [12]`. -/
theorem claim_C1_witness :
    SpatialCrop.fromCenterSize [10] [4] =
      .ok ⟨List.zipWith (fun c s => (c - s / 2).toNat) ([10] : List Int) ([4] : List Int),
           List.zipWith (fun c s => (c - s / 2 + s).toNat) ([10] : List Int) ([4] : List Int)⟩ :=
  claim_C1 [10] [4] (by decide)

/-- Counterexample for C1 as stated: `center = [1]`, `size = [4]` are
positive with `size // 2 = 2` exceeding `center = 1`; the claim predicts the
stored start `center - size // 2 = -1`, but the code stores the `uint16`
values `start = [65535]`, `end = [3]`. -/
theorem claim_C1_cex :
    SpatialCrop.fromCenterSize [1] [4] = .ok ⟨[65535], [3]⟩ ∧
      ((65535 : Int) ≠ 1 - 4 / 2) := by
  constructor
  · rfl
  · decide

theorem zipWith_getD (f : Nat → Nat → Nat) (a b : List Nat) (d : Nat)
    (ha : d < a.length) (hb : d < b.length) :
    (List.zipWith f a b).getD d 0 = f (a.getD d 0) (b.getD d 0) := by
  induction a generalizing b d with
  | nil => simp at ha
  | cons x xs ih =>
    cases b with
    | nil => simp at hb
    | cons y ys =>
      cases d with
      | zero => rfl
      | succ d =>
        simp only [List.zipWith_cons_cons, List.getD_cons_succ]
        exact ih ys d (by simpa using ha) (by simpa using hb)

theorem leAll_eq_false (a b : List Nat) (d : Nat)
    (ha : d < a.length) (hb : d < b.length) (hlt : b.getD d 0 < a.getD d 0) :
    leAll a b = false := by
  induction a generalizing b d with
  | nil => simp at ha
  | cons x xs ih =>
    cases b with
    | nil => simp at hb
    | cons y ys =>
      cases d with
      | zero =>
        simp only [List.getD_cons_zero] at hlt
        simp only [leAll, List.zip_cons_cons, List.all_cons, Bool.and_eq_false_iff]
        left
        simpa using Nat.not_le_of_lt hlt
      | succ d =>
        simp only [List.getD_cons_succ] at hlt
        have := ih ys d (by simpa using ha) (by simpa using hb) hlt
        simp only [leAll, List.zip_cons_cons, List.all_cons, Bool.and_eq_false_iff]
        right
        simpa [leAll] using this

theorem SpatialCrop.call_ok {α : Type} (c : Nat) (spatial start stop : List Nat)
    (f : List Nat → α)
    (h1 : start.length = spatial.length) (h2 : stop.length = spatial.length)
    (h3 : leAll start spatial = true) (h4 : leAll stop spatial = true)
    (h5 : leAll start stop = true) (h6 : 1 ≤ start.length) (h7 : start.length ≤ 3) :
    SpatialCrop.call ⟨start, stop⟩ (NDArray.mk (c :: spatial) f) =
      .ok ⟨c :: List.zipWith (fun e s => e - s) stop start,
           fun idx => f (idx.headD 0 :: List.zipWith (fun s i => s + i) start idx.tail)⟩ := by
  unfold SpatialCrop.call
  simp [h1, h2, h3, h4, h5, h6, h7]
  omega

/-- Claim C2: for an image with 1, 2 or 3 spatial axes and an in-bounds ROI
(`start ≤ spatial shape`, `end ≤ spatial shape`, `start ≤ end` elementwise),
`SpatialCrop.__call__` succeeds; the output spatial shape is exactly
`end - start` on every spatial axis, the channel extent (axis 0) is
unchanged, and every output entry `(ch, i)` reads input entry
`(ch, start + i)` — the full channel axis is preserved. -/
theorem claim_C2 {α : Type} (c : Nat) (spatial start stop : List Nat) (f : List Nat → α)
    (h1 : start.length = spatial.length) (h2 : stop.length = spatial.length)
    (h3 : leAll start spatial = true) (h4 : leAll stop spatial = true)
    (h5 : leAll start stop = true) (h6 : 1 ≤ spatial.length) (h7 : spatial.length ≤ 3) :
    ∃ out, SpatialCrop.call ⟨start, stop⟩ (NDArray.mk (c :: spatial) f) = .ok out
      ∧ out.shape = c :: List.zipWith (fun e s => e - s) stop start
      ∧ ∀ ch idx, out.data (ch :: idx) = f (ch :: List.zipWith (fun s i => s + i) start idx) :=
  ⟨_, SpatialCrop.call_ok c spatial start stop f h1 h2 h3 h4 h5 (h1 ▸ h6) (h1 ▸ h7),
    rfl, fun _ _ => rfl⟩

/-- Witness for C2: image of shape `[2, 5, 5]`, ROI `start = [1, 2]`,
`end = [3, 5]`; the crop succeeds with shape `[2, 2, 3]`. -/
theorem claim_C2_witness :
    ∃ out, SpatialCrop.call ⟨[1, 2], [3, 5]⟩ (NDArray.mk [2, 5, 5] (fun _ => (0 : Int))) = .ok out
      ∧ out.shape = 2 :: List.zipWith (fun e s => e - s) [3, 5] [1, 2]
      ∧ ∀ ch idx, out.data (ch :: idx) =
          (fun (_ : List Nat) => (0 : Int)) (ch :: List.zipWith (fun s i => s + i) [1, 2] idx) :=
  claim_C2 2 [5, 5] [1, 2] [3, 5] (fun _ => (0 : Int)) rfl rfl (by decide) (by decide)
    (by decide) (by decide) (by decide)

/-- Claim C3: (a) calling `SpatialCrop` with `roi_end` exceeding the image
spatial extent on some axis fails; (b) with `roi_start = roi_end` on some
axis and the whole ROI within bounds, the call succeeds and that axis of the
output has length zero. -/
theorem claim_C3 {α : Type} (c : Nat) (spatial start stop : List Nat) (f : List Nat → α)
    (h1 : start.length = spatial.length) (h2 : stop.length = spatial.length) :
    ((∃ d, d < spatial.length ∧ spatial.getD d 0 < stop.getD d 0) →
        ∃ msg, SpatialCrop.call ⟨start, stop⟩ (NDArray.mk (c :: spatial) f) = .error msg)
    ∧ (leAll start spatial = true → leAll stop spatial = true → leAll start stop = true →
        1 ≤ spatial.length → spatial.length ≤ 3 →
        ∀ d, d < spatial.length → start.getD d 0 = stop.getD d 0 →
          ∃ out, SpatialCrop.call ⟨start, stop⟩ (NDArray.mk (c :: spatial) f) = .ok out
            ∧ out.shape.getD (d + 1) 0 = 0) := by
  constructor
  · rintro ⟨d, hd, hlt⟩
    have hfalse : leAll stop spatial = false :=
      leAll_eq_false stop spatial d (h2 ▸ hd) hd hlt
    cases hle : leAll start spatial with
    | false =>
      refine ⟨"roi start out of image space.", ?_⟩
      unfold SpatialCrop.call
      simp [h1, h2, hle]
    | true =>
      refine ⟨"roi end out of image space.", ?_⟩
      unfold SpatialCrop.call
      simp [h1, h2, hle, hfalse]
  · intro h3 h4 h5 h6 h7 d hd heq
    refine ⟨_, SpatialCrop.call_ok c spatial start stop f h1 h2 h3 h4 h5
      (h1 ▸ h6) (h1 ▸ h7), ?_⟩
    simp only [List.getD_cons_succ]
    rw [zipWith_getD (fun e s => e - s) stop start d (h2 ▸ hd) (h1 ▸ hd)]
    omega

/-- Witness for C3: on an image of shape `[1, 4, 4]`, the ROI
`[0,0]..[1,5]` (end exceeds extent 4 on axis 1) fails, while the ROI
`[2,2]..[2,4]` (equal start and end on axis 0, in bounds) succeeds with a
zero-length axis. -/
theorem claim_C3_witness :
    (∃ msg, SpatialCrop.call ⟨[0, 0], [1, 5]⟩
        (NDArray.mk [1, 4, 4] (fun _ => (0 : Int))) = .error msg)
    ∧ (∃ out, SpatialCrop.call ⟨[2, 2], [2, 4]⟩
        (NDArray.mk [1, 4, 4] (fun _ => (0 : Int))) = .ok out
        ∧ out.shape.getD 1 0 = 0) :=
  ⟨(claim_C3 1 [4, 4] [0, 0] [1, 5] (fun _ => (0 : Int)) rfl rfl).1
      ⟨1, by decide, by decide⟩,
   (claim_C3 1 [4, 4] [2, 2] [2, 4] (fun _ => (0 : Int)) rfl rfl).2
      (by decide) (by decide) (by decide) (by decide) (by decide) 0 (by decide) (by decide)⟩

/-- Number of cells the keep-size reconciliation inserts before the data on
an axis of original extent `s` and zoomed extent `z`: `floor((s - z) / 2)`
when the axis shrank, `0` otherwise (the crop case adds no leading cells). -/
def padB (s z : Nat) : Nat := if z < s then (s - z) / 2 else 0

theorem padAxis_eq (s z : Nat) :
    (if z < s then ((s - z) / 2, (s - z + 1) / 2) else ((0 : Nat), (0 : Nat))).1
        + min (if s < z then s else z) z
        + (if z < s then ((s - z) / 2, (s - z + 1) / 2) else ((0 : Nat), (0 : Nat))).2 = s := by
  rcases Nat.lt_trichotomy z s with h | h | h
  · simp [h, Nat.lt_asymm h]
    omega
  · subst h
    simp [Nat.lt_irrefl]
  · simp [h, Nat.lt_asymm h, Nat.min_eq_left (Nat.le_of_lt h)]

theorem padHit_iff (s z i : Nat) :
    (padHit (if z < s then ((s - z) / 2, (s - z + 1) / 2) else ((0 : Nat), (0 : Nat)))
        (min (if s < z then s else z) z) i = true)
      ↔ (padB s z ≤ i ∧ i < padB s z + min z s) := by
  unfold padHit padB
  rcases Nat.lt_trichotomy z s with h | h | h
  · simp [h, Nat.lt_asymm h, Nat.min_eq_left (Nat.le_of_lt h)]
  · subst h
    simp [Nat.lt_irrefl]
  · simp [h, Nat.lt_asymm h, Nat.min_eq_left (Nat.le_of_lt h),
      Nat.min_eq_right (Nat.le_of_lt h)]

theorem padSub_eq (s z i : Nat) :
    i - (if z < s then ((s - z) / 2, (s - z + 1) / 2) else ((0 : Nat), (0 : Nat))).1
      = i - padB s z := by
  by_cases h : z < s <;> simp [padB, h]

/-- Claim C4: for every 3-axis input shape `[a, b, c]` and every resampled
intermediate of shape `[x, y, z]` (hence for every zoom factor), the
keep-size reconciliation succeeds with the original shape `[a, b, c]`; on
each axis the zoomed data is cropped from index 0 when it grew and padded
with `padB` leading and the (one larger when odd) remaining trailing
constant `cval` cells when it shrank: entry `(i, j, k)` of the output reads
zoomed entry `(i - padB a x, j - padB b y, k - padB c z)` when each
coordinate falls in the retained window of extent `min zoomed orig`, and is
`cval` otherwise. -/
theorem claim_C4 {α : Type} (a b c x y z : Nat) (f : List Nat → α) (cval : α) :
    ∃ out, Zoom.keepSize [a, b, c] cval (NDArray.mk [x, y, z] f) = .ok out
      ∧ out.shape = [a, b, c]
      ∧ ∀ i j k, out.data [i, j, k] =
          if (padB a x ≤ i ∧ i < padB a x + min x a)
             ∧ (padB b y ≤ j ∧ j < padB b y + min y b)
             ∧ (padB c z ≤ k ∧ k < padB c z + min z c)
          then f [i - padB a x, j - padB b y, k - padB c z] else cval := by
  refine ⟨padArr
      [if x < a then ((a - x) / 2, (a - x + 1) / 2) else ((0 : Nat), (0 : Nat)),
       if y < b then ((b - y) / 2, (b - y + 1) / 2) else ((0 : Nat), (0 : Nat)),
       if z < c then ((c - z) / 2, (c - z + 1) / 2) else ((0 : Nat), (0 : Nat))]
      cval
      (NDArray.mk
        [min (if a < x then a else x) x, min (if b < y then b else y) y,
         min (if c < z then c else z) z] f),
    rfl, ?_, ?_⟩
  · show List.zipWith _ _ _ = _
    simp only [List.zipWith_cons_cons, List.zipWith_nil_right]
    rw [padAxis_eq a x, padAxis_eq b y, padAxis_eq c z]
  · intro i j k
    show (if _ then _ else _) = _
    simp only [List.zip_cons_cons, List.zip_nil_right, List.all_cons, List.all_nil,
      Bool.and_true, List.zipWith_cons_cons, List.zipWith_nil_right]
    refine if_congr ?_ ?_ rfl
    · simp only [Bool.and_eq_true, padHit_iff]
    · rw [padSub_eq a x i, padSub_eq b y j, padSub_eq c z k]

/-- Claim C9: the keep-size reconciliation always indexes three axes
(`zoomed[0:crop_vec[0], 0:crop_vec[1], 0:crop_vec[2]]`), so `Zoom` with
`keep_size=True` fails at call time for every input with fewer than 3 axes,
whatever the resampled intermediate is — in particular for zoom factor 1,
where the intermediate equals the input and no crop or pad would be
needed. -/
theorem claim_C9 {α : Type} (origShape : List Nat) (cval : α) (zoomed : NDArray α)
    (h : origShape.length < 3) :
    ∃ msg, Zoom.keepSize origShape cval zoomed = .error msg := by
  rcases origShape with _ | ⟨s0, _ | ⟨s1, _ | ⟨s2, rest⟩⟩⟩
  · exact ⟨_, rfl⟩
  · exact ⟨_, rfl⟩
  · exact ⟨_, rfl⟩
  · simp at h
    omega

/-- Witness for C9: a 2-axis image of shape `[4, 5]` with zoom factor 1
(the intermediate is the input itself) still fails. -/
theorem claim_C9_witness :
    ∃ msg, Zoom.keepSize [4, 5] (0 : Int) (NDArray.mk [4, 5] (fun _ => 0)) = .error msg :=
  claim_C9 [4, 5] 0 (NDArray.mk [4, 5] (fun _ => 0)) (by decide)

theorem range_map_pad_eq (outSize ds : List Nat) (h : outSize.length ≤ ds.length) :
    (List.range outSize.length).map (fun i => ((0 : Nat), outSize.getD i 0 - ds.getD i 0))
      = List.zipWith (fun o d => (0, o - d)) outSize ds := by
  induction outSize generalizing ds with
  | nil => rfl
  | cons o os ih =>
    cases ds with
    | nil => simp at h
    | cons d dsT =>
      rw [List.length_cons, List.range_succ_eq_map]
      simp only [List.map_cons, List.map_map, List.zipWith_cons_cons, List.getD_cons_zero]
      congr 1
      rw [← ih dsT (by simpa using h)]
      rfl

theorem padShape_zip (outSize rest : List Nat) (h : outSize.length = rest.length) :
    List.zipWith (fun (p : Nat × Nat) s => p.1 + s + p.2)
        (List.zipWith (fun o d => ((0 : Nat), o - d)) outSize rest) rest
      = List.zipWith (fun s o => max s o) rest outSize := by
  induction outSize generalizing rest with
  | nil => cases rest <;> simp_all
  | cons o os ih =>
    cases rest with
    | nil => simp at h
    | cons r rs =>
      simp only [List.zipWith_cons_cons]
      congr 1
      · rw [Nat.max_def]
        split <;> omega
      · exact ih rs (by simpa using h)

theorem inBounds_cons {i s : Nat} {idxT shapeT : List Nat} :
    inBounds (i :: idxT) (s :: shapeT) = true ↔
      (i < s ∧ inBounds idxT shapeT = true) := by
  simp only [inBounds, List.length_cons, List.zip_cons_cons, List.all_cons,
    Bool.and_eq_true, decide_eq_true_eq, add_left_inj]
  tauto

theorem zipWith_sub_zero_before (idx : List Nat) (pv : List (Nat × Nat))
    (hz : ∀ p ∈ pv, p.1 = 0) (hl : idx.length ≤ pv.length) :
    List.zipWith (fun i (p : Nat × Nat) => i - p.1) idx pv = idx := by
  induction idx generalizing pv with
  | nil => rfl
  | cons i idxT ih =>
    cases pv with
    | nil => simp at hl
    | cons p pvT =>
      simp only [List.zipWith_cons_cons, hz p (List.mem_cons_self p pvT), Nat.sub_zero,
        List.cons.injEq, true_and]
      exact ih pvT (fun q hq => hz q (List.mem_cons_of_mem p hq)) (by simpa using hl)

theorem padHit_all_zero_before (idx : List Nat) (pv : List (Nat × Nat)) (shape : List Nat)
    (hz : ∀ p ∈ pv, p.1 = 0) (hl : pv.length = shape.length)
    (hb : inBounds idx shape = true) :
    (List.zip idx (List.zip pv shape)).all (fun t => padHit t.2.1 t.2.2 t.1) = true := by
  induction idx generalizing pv shape with
  | nil => rfl
  | cons i idxT ih =>
    cases shape with
    | nil => simp [inBounds] at hb
    | cons s shapeT =>
      cases pv with
      | nil => simp at hl
      | cons p pvT =>
        obtain ⟨hi, hbT⟩ := inBounds_cons.1 hb
        simp only [List.zip_cons_cons, List.all_cons, Bool.and_eq_true]
        refine ⟨?_, ih pvT shapeT (fun q hq => hz q (List.mem_cons_of_mem p hq))
          (by simpa using hl) hbT⟩
        simp only [padHit, hz p (List.mem_cons_self p pvT), decide_eq_true_eq]
        omega

theorem padArr_data_zero_before {α : Type} (fill : α) (f : List Nat → α)
    (pv : List (Nat × Nat)) (shape idx : List Nat)
    (hz : ∀ p ∈ pv, p.1 = 0) (hl : pv.length = shape.length)
    (hb : inBounds idx shape = true) :
    (padArr pv fill (NDArray.mk shape f)).data idx = f idx := by
  have hlen : idx.length = shape.length := by
    have hb2 := hb
    simp only [inBounds, Bool.and_eq_true, decide_eq_true_eq] at hb2
    exact hb2.1
  show (if _ then _ else _) = _
  rw [if_pos (padHit_all_zero_before idx pv shape hz hl hb),
    zipWith_sub_zero_before idx pv hz (by omega)]

theorem zipWith_pad_fst_zero (a b : List Nat) :
    ∀ p ∈ List.zipWith (fun o d => ((0 : Nat), o - d)) a b, p.1 = 0 := by
  induction a generalizing b with
  | nil => simp
  | cons o os ih =>
    cases b with
    | nil => simp
    | cons d ds =>
      simp only [List.zipWith_cons_cons, List.mem_cons]
      rintro p (rfl | hp)
      · rfl
      · exact ih ds p hp

theorem imageEndPadder_ok {α : Type} [Zero α] (s0 s1 : Nat) (rest outSize : List Nat)
    (f : List Nat → α) (h : outSize.length = rest.length) :
    ImageEndPadder.call outSize (NDArray.mk (s0 :: s1 :: rest) f) =
      .ok (padArr ((0, 0) :: (0, 0) :: List.zipWith (fun o d => (0, o - d)) outSize rest) 0
        (NDArray.mk (s0 :: s1 :: rest) f)) := by
  have hd : determineDataPadWidth outSize ((s0 :: s1 :: rest).drop 2) =
      .ok (List.zipWith (fun o d => (0, o - d)) outSize rest) := by
    unfold determineDataPadWidth
    simp only [List.drop_succ_cons, List.drop_zero]
    rw [if_pos (le_of_eq h), range_map_pad_eq outSize rest (le_of_eq h)]
  unfold ImageEndPadder.call
  simp only [hd]
  rw [if_pos (by simp only [List.length_cons, List.length_zipWith]; omega)]

/-- Sample image contents for the `ImageEndPadder` example: a nowhere-zero
array. -/
def exImg : List Nat → Int := fun idx => ((idx.foldr (fun u v => u + v) 0 : Nat) : Int) + 1

/-- Claim C5 (amended): for every input whose rank is `2 + len(out_size)`,
`ImageEndPadder` leaves axes 0 and 1 unchanged and pads each axis from index
2 on only at the end, up to extent `max(current, out_size[i])` (pad amount 0
when the axis already meets the target), preserving every in-bounds entry.
The spec's end-to-end example must use a rank-4 input: shape
`(1, 1, 4, 4)` with `out_size=[6, 6]` gives shape `(1, 1, 6, 6)` with the
original block at `[0:4, 0:4]` of the spatial axes and zeros elsewhere — on
the spec's rank-3 input `(1, 4, 4)` with `out_size=[1, 6, 6]` the call
raises an index error instead (see the counterexample). -/
theorem claim_C5 :
    (∀ (s0 s1 : Nat) (rest outSize : List Nat) (f : List Nat → Int),
      outSize.length = rest.length →
      ∃ out, ImageEndPadder.call outSize (NDArray.mk (s0 :: s1 :: rest) f) = .ok out
        ∧ out.shape = s0 :: s1 :: List.zipWith (fun s o => max s o) rest outSize
        ∧ ∀ idx, inBounds idx (s0 :: s1 :: rest) = true → out.data idx = f idx)
    ∧ (∃ out, ImageEndPadder.call [6, 6] (NDArray.mk [1, 1, 4, 4] exImg) = .ok out
        ∧ out.shape = [1, 1, 6, 6]
        ∧ ∀ i, i < 6 → ∀ j, j < 6 →
            out.data [0, 0, i, j] = if i < 4 ∧ j < 4 then exImg [0, 0, i, j] else 0) := by
  constructor
  · intro s0 s1 rest outSize f h
    refine ⟨_, imageEndPadder_ok s0 s1 rest outSize f h, ?_, ?_⟩
    · show List.zipWith _ _ _ = _
      simp only [List.zipWith_cons_cons, padShape_zip outSize rest h, List.cons.injEq]
      exact ⟨by omega, by omega, trivial⟩
    · intro idx hb
      exact padArr_data_zero_before 0 f _ _ idx
        (by
          simp only [List.mem_cons]
          rintro p (rfl | rfl | hp)
          · rfl
          · rfl
          · exact zipWith_pad_fst_zero outSize rest p hp)
        (by simp only [List.length_cons, List.length_zipWith]; omega) hb
  · exact ⟨_, rfl, rfl, by decide⟩

/-- Witness for C5: the general part applied to shape `[1, 1, 4, 4]` with
`out_size = [6, 6]`. -/
theorem claim_C5_witness :
    ∃ out, ImageEndPadder.call [6, 6] (NDArray.mk [1, 1, 4, 4] (fun _ => (3 : Int))) = .ok out
      ∧ out.shape = 1 :: 1 :: List.zipWith (fun s o => max s o) [4, 4] [6, 6]
      ∧ ∀ idx, inBounds idx [1, 1, 4, 4] = true → out.data idx = (fun _ => (3 : Int)) idx :=
  claim_C5.1 1 1 [4, 4] [6, 6] (fun _ => (3 : Int)) rfl

/-- Counterexample for C5 as stated: on the spec's own example — input shape
`(1, 4, 4)` with `out_size=[1, 6, 6]` and constant mode — the call fails
with an index error (the comprehension indexes `img.shape[2:]`, which has
only one entry, at positions 0..2), instead of returning a `(1, 6, 6)`
array. -/
theorem claim_C5_cex :
    ImageEndPadder.call [1, 6, 6] (NDArray.mk [1, 4, 4] (fun _ => (0 : Int))) =
      .error "tuple index out of range" := rfl

theorem randomize_make_eq (p : ℚ) (maxk : Nat) (axes : Nat × Nat) (g : Gen)
    (hmk : maxk ≠ 0) :
    (RandRotate90.make p maxk axes).randomize g = .ok
      ({ prob := min (max p 0) 1, max_k := maxk, axes := axes
         do_transform := decide (g.floatSeq (g.pos + 1) < min (max p 0) 1)
         rand_k := g.intSeq g.pos % maxk + 1 },
       { intSeq := g.intSeq, floatSeq := g.floatSeq, pos := g.pos + 2
         log := (g.log ++ [DrawEvent.randint maxk]) ++ [DrawEvent.rand] }) := by
  unfold RandRotate90.randomize RandRotate90.make Gen.randint Gen.random
  rw [if_neg hmk]

theorem randRotate90_call_state {α : Type} (t : RandRotate90) (g : Gen) (img : NDArray α)
    (t1 : RandRotate90) (g1 : Gen) (res : NDArray α × RandRotate90 × Gen)
    (hr : t.randomize g = .ok (t1, g1)) (hcall : t.call img g = .ok res) :
    res.2.1 = t1 ∧ res.2.2 = g1 := by
  unfold RandRotate90.call at hcall
  rw [hr] at hcall
  cases hdt : t1.do_transform with
  | false =>
    simp only [hdt, Bool.false_eq_true, if_false, Except.ok.injEq] at hcall
    rw [← hcall]
    exact ⟨rfl, rfl⟩
  | true =>
    simp only [hdt, if_true] at hcall
    cases hrot : rot90 t1.rand_k t1.axes img with
    | error e => rw [hrot] at hcall; exact absurd hcall (by simp)
    | ok out =>
      rw [hrot] at hcall
      simp only [Except.ok.injEq] at hcall
      rw [← hcall]
      exact ⟨rfl, rfl⟩

/-- Claim C6: every call of `RandRotate90` performs exactly two draws from
its source, first `randint(max_k)` then `random()`, advancing the source by
two positions regardless of the outcome; the drawn rotation count lies in
`1..max_k`, and the Bernoulli decision compares the second draw against the
constructor argument `prob` clamped to `[0, 1]`.  Whenever the call
completes, its reported transform state and source are exactly those
produced by this unconditional randomize step. -/
theorem claim_C6 (p : ℚ) (maxk : Nat) (axes : Nat × Nat) (g : Gen) (hmk : 1 ≤ maxk) :
    ∃ t1 g1, (RandRotate90.make p maxk axes).randomize g = .ok (t1, g1)
      ∧ g1.log = g.log ++ [DrawEvent.randint maxk, DrawEvent.rand]
      ∧ g1.pos = g.pos + 2
      ∧ 1 ≤ t1.rand_k ∧ t1.rand_k ≤ maxk
      ∧ t1.do_transform = decide (g.floatSeq (g.pos + 1) < min (max p 0) 1)
      ∧ ∀ (img : NDArray Int) res,
          (RandRotate90.make p maxk axes).call img g = .ok res →
            res.2.1 = t1 ∧ res.2.2 = g1 := by
  have hne : maxk ≠ 0 := by omega
  refine ⟨_, _, randomize_make_eq p maxk axes g hne, by simp, rfl,
    by show 1 ≤ g.intSeq g.pos % maxk + 1; omega, ?_, rfl, ?_⟩
  · show g.intSeq g.pos % maxk + 1 ≤ maxk
    have := Nat.mod_lt (g.intSeq g.pos) (Nat.pos_of_ne_zero hne)
    omega
  · intro img res hcall
    exact randRotate90_call_state _ _ _ _ _ _ (randomize_make_eq p maxk axes g hne) hcall

/-- Witness for C6: a concrete source stream with `prob = 1/2`,
`max_k = 3`. -/
theorem claim_C6_witness :
    ∃ t1 g1, (RandRotate90.make (1/2) 3 (1, 2)).randomize
        (Gen.mk (fun _ => 5) (fun _ => 1/4) 0 []) = .ok (t1, g1)
      ∧ g1.log = (Gen.mk (fun _ => 5) (fun _ => 1/4) 0 []).log
          ++ [DrawEvent.randint 3, DrawEvent.rand]
      ∧ g1.pos = (Gen.mk (fun _ => 5) (fun _ => 1/4) 0 []).pos + 2
      ∧ 1 ≤ t1.rand_k ∧ t1.rand_k ≤ 3
      ∧ t1.do_transform = decide ((Gen.mk (fun _ => 5) (fun _ => 1/4) 0 []).floatSeq
          ((Gen.mk (fun _ => 5) (fun _ => 1/4) 0 []).pos + 1) < min (max (1/2 : ℚ) 0) 1)
      ∧ ∀ (img : NDArray Int) res,
          (RandRotate90.make (1/2) 3 (1, 2)).call img
              (Gen.mk (fun _ => 5) (fun _ => 1/4) 0 []) = .ok res →
            res.2.1 = t1 ∧ res.2.2 = g1 :=
  claim_C6 (1/2) 3 (1, 2) (Gen.mk (fun _ => 5) (fun _ => 1/4) 0 []) (by omega)

/-- Claim C7: `RandRotate90` constructed with `prob = 0.0` returns the exact
input unchanged on every call and for every source state (the clamped
probability is 0 and `random()` yields a value `≥ 0`, so the Bernoulli
decision is always false). -/
theorem claim_C7 {α : Type} (maxk : Nat) (axes : Nat × Nat) (g : Gen) (img : NDArray α)
    (hmk : 1 ≤ maxk) (hpos : ∀ n, 0 ≤ g.floatSeq n) :
    ∃ t1 g1, (RandRotate90.make 0 maxk axes).call img g = .ok (img, t1, g1) := by
  have hne : maxk ≠ 0 := by omega
  have hdec : decide (g.floatSeq (g.pos + 1) < min (max (0 : ℚ) 0) 1) = false := by
    simp only [decide_eq_false_iff_not, not_lt]
    simpa using hpos (g.pos + 1)
  refine ⟨{ prob := min (max 0 0) 1, max_k := maxk, axes := axes
            do_transform := decide (g.floatSeq (g.pos + 1) < min (max (0 : ℚ) 0) 1)
            rand_k := g.intSeq g.pos % maxk + 1 },
          { intSeq := g.intSeq, floatSeq := g.floatSeq, pos := g.pos + 2
            log := (g.log ++ [DrawEvent.randint maxk]) ++ [DrawEvent.rand] }, ?_⟩
  unfold RandRotate90.call
  rw [randomize_make_eq 0 maxk axes g hne]
  simp only [hdec, Bool.false_eq_true, if_false]

/-- Witness for C7: a concrete source stream; the call returns the input
array unchanged. -/
theorem claim_C7_witness :
    ∃ t1 g1, (RandRotate90.make 0 3 (1, 2)).call
        (NDArray.mk [1, 2, 2] (fun l => (l.foldr (fun u v => u + v) 0 : Nat)))
        (Gen.mk (fun _ => 7) (fun _ => 1/3) 0 []) =
      .ok (NDArray.mk [1, 2, 2] (fun l => (l.foldr (fun u v => u + v) 0 : Nat)), t1, g1) :=
  claim_C7 3 (1, 2) (Gen.mk (fun _ => 7) (fun _ => 1/3) 0 [])
    (NDArray.mk [1, 2, 2] (fun l => (l.foldr (fun u v => u + v) 0 : Nat)))
    (by omega) (fun n => by norm_num)

/-- Claim C8 (amended): transform configuration is immutable after
construction, with one exception the counterexample forces:
`AsChannelFirst.__call__` rewrites its `channel_dim` field — after a
successful call it equals `img.ndim - 1` when it was `-1`, and is unchanged
otherwise; `RandRotate90`'s configuration fields (`prob`, `max_k`, `axes`)
are never changed by its randomize step. -/
theorem claim_C8 :
    (∀ (cd : Int) (img : NDArray Int) (out : NDArray Int × AsChannelFirst),
        AsChannelFirst.call ⟨cd⟩ img = .ok out →
        out.2.channel_dim = if cd = -1 then (img.shape.length : Int) - 1 else cd)
    ∧ (∀ (t : RandRotate90) (g : Gen) (t1 : RandRotate90) (g1 : Gen),
        t.randomize g = .ok (t1, g1) →
        t1.prob = t.prob ∧ t1.max_k = t.max_k ∧ t1.axes = t.axes) := by
  constructor
  · intro cd img out hok
    unfold AsChannelFirst.call at hok
    split at hok
    · rename_i hcd
      dsimp only [] at hok
      split at hok
      · simp only [Except.ok.injEq] at hok
        rw [← hok, if_pos (show cd = -1 from hcd)]
      · exact absurd hok (by simp)
    · rename_i hcd
      dsimp only [] at hok
      split at hok
      · simp only [Except.ok.injEq] at hok
        rw [← hok, if_neg (show ¬cd = -1 from hcd)]
      · exact absurd hok (by simp)
  · intro t g t1 g1 h
    unfold RandRotate90.randomize Gen.randint at h
    split at h
    · exact absurd h (by simp)
    · simp only [Except.ok.injEq, Prod.mk.injEq] at h
      rw [← h.1]
      exact ⟨rfl, rfl, rfl⟩

/-- Witness for C8 (amended): a call with `channel_dim = 0` leaves the
configuration at `0`; a randomize step leaves `RandRotate90`'s
configuration unchanged. -/
theorem claim_C8_witness :
    (∃ out, AsChannelFirst.call ⟨0⟩ (NDArray.mk [2, 3] (fun _ => (0 : Int))) = .ok out
      ∧ out.2.channel_dim =
          if (0 : Int) = -1 then ((([2, 3] : List Nat).length : Int)) - 1 else 0)
    ∧ (∃ t1 g1, (RandRotate90.make (1/2) 3 (1, 2)).randomize
          (Gen.mk (fun _ => 5) (fun _ => 1/4) 0 []) = .ok (t1, g1)
        ∧ t1.prob = (RandRotate90.make (1/2) 3 (1, 2)).prob
        ∧ t1.max_k = (RandRotate90.make (1/2) 3 (1, 2)).max_k
        ∧ t1.axes = (RandRotate90.make (1/2) 3 (1, 2)).axes) :=
  ⟨⟨_, rfl, claim_C8.1 0 (NDArray.mk [2, 3] (fun _ => (0 : Int))) _ rfl⟩,
   ⟨_, _, randomize_make_eq (1/2) 3 (1, 2) (Gen.mk (fun _ => 5) (fun _ => 1/4) 0 [])
        (by omega),
    (claim_C8.2 _ _ _ _ (randomize_make_eq (1/2) 3 (1, 2)
        (Gen.mk (fun _ => 5) (fun _ => 1/4) 0 []) (by omega))).1,
    (claim_C8.2 _ _ _ _ (randomize_make_eq (1/2) 3 (1, 2)
        (Gen.mk (fun _ => 5) (fun _ => 1/4) 0 []) (by omega))).2.1,
    (claim_C8.2 _ _ _ _ (randomize_make_eq (1/2) 3 (1, 2)
        (Gen.mk (fun _ => 5) (fun _ => 1/4) 0 []) (by omega))).2.2⟩⟩

/-- Counterexample for C8 as stated: `AsChannelFirst` constructed with the
default `channel_dim = -1`, called on a 3-axis image, ends with
`channel_dim = 2 ≠ -1`: the configuration field changed. -/
theorem claim_C8_cex :
    ∃ out, AsChannelFirst.call ⟨-1⟩ (NDArray.mk [2, 3, 4] (fun _ => (0 : Int))) = .ok out
      ∧ out.2.channel_dim = 2 ∧ ((2 : Int) ≠ -1) :=
  ⟨_, rfl, rfl, by decide⟩

end Monai
